import Mathlib

/-!
Verification of the vestream signaling hub (backend `index.ts`).

The hub keeps five in-memory registries (`rooms`, `users`, `connections`,
`activeStreams`, `chatMessages`) plus a per-session `currentUserId`
variable, and reacts to inbound WebSocket envelopes and to session
closes.  We embed the hub shallowly: the registries that the source only
ever reads pointwise become functions to `Option`, the `users` registry
(which the source enumerates via `users.values()`) becomes an
association list with JavaScript `Map` semantics, server-minted uuids
become a fresh-id counter, and a `WebSocket` becomes the numeric id of
the session that owns it.  The dispatcher becomes a pure `step`
function from a hub state and an event to the successor state and the
list of envelopes sent, in emission order.
-/

namespace Vestream

/-- Pointwise update of a function-backed map (`Map.set` / `Map.delete`
with `none`). -/
def fset {α β : Type} [DecidableEq α] (m : α → Option β) (k : α) (v : Option β) :
    α → Option β :=
  fun k' => if k' = k then v else m k'

/-- `Map.get` on an association list: the value of the first entry with the
given key. -/
def aget {α β : Type} [DecidableEq α] (m : List (α × β)) (k : α) : Option β :=
  (m.find? (fun p => p.1 = k)).map (fun p => p.2)

/-- `Map.set` on an association list: replace in place when the key is
present, append otherwise. -/
def aset {α β : Type} [DecidableEq α] (m : List (α × β)) (k : α) (v : β) :
    List (α × β) :=
  if m.any (fun p => p.1 = k) then
    m.map (fun p => if p.1 = k then (k, v) else p)
  else
    m ++ [(k, v)]

/-- `Map.delete` on an association list. -/
def adel {α β : Type} [DecidableEq α] (m : List (α × β)) (k : α) :
    List (α × β) :=
  m.filter (fun p => p.1 ≠ k)

/-- `role` field of a user (`'broadcaster' | 'viewer'`). -/
inductive Role where
  | broadcaster
  | viewer
deriving DecidableEq, Repr

/-- `type` field of a chat message (`'public' | 'private'`). -/
inductive ChatKind where
  | pub
  | priv
deriving DecidableEq, Repr

/-- The `User` record of the shared package.  User ids are server-minted
uuids, embedded as naturals drawn from a fresh-id counter. -/
structure User where
  id : Nat
  username : String
  role : Role
  roomId : String
deriving DecidableEq, Repr

/-- The `Room` record of the shared package: optional broadcaster user id
and the viewer user ids in join order. -/
structure Room where
  id : String
  name : String
  broadcaster : Option Nat
  viewers : List Nat
deriving DecidableEq, Repr

/-- The `ChatMessage` record: ids minted from the same fresh-id counter as
user ids, timestamps are opaque strings minted at dispatch time. -/
structure ChatMessage where
  id : Nat
  senderId : Nat
  senderUsername : String
  roomId : String
  content : String
  kind : ChatKind
  recipientId : Option Nat
  timestamp : String
deriving DecidableEq, Repr

/-- The room snapshot built by `getRoomWithUsers`: the room spread together
with the resolved `users` list. -/
structure RoomWithUsers where
  room : Room
  users : List User
deriving DecidableEq, Repr

/-- `ERROR` payload codes. -/
inductive ErrorCode where
  | ROOM_NOT_FOUND
  | BROADCASTER_EXISTS
  | USER_EXISTS
  | INVALID_ROLE
deriving DecidableEq, Repr

/-- The three relayed signaling envelope types. -/
inductive SigKind where
  | OFFER
  | ANSWER
  | ICE_CANDIDATE
deriving DecidableEq, Repr

/-- Hub-to-client envelopes, by `type` tag with their payloads. -/
inductive OutMsg where
  | ERROR (code : ErrorCode) (message : String)
  | ROOM_JOINED (room : Option RoomWithUsers) (user : User)
      (messages : List ChatMessage)
  | USER_JOINED (user : User)
  | USER_LEFT (user : User) (room : Option RoomWithUsers)
  | ROOM_STATE (room : Option RoomWithUsers)
  | BROADCASTER_READY (broadcaster : User)
  | VIEWER_READY (viewer : User)
  | CHAT_MESSAGE_RECEIVED (message : ChatMessage)
  | SIGNAL (kind : SigKind) (sender : Nat) (receiver : Nat)
      (roomId : String) (data : String)
deriving DecidableEq, Repr

/-- One send: the id of the target session and the envelope. -/
abbrev Output := Nat × OutMsg

/-- The in-memory hub state: the five registries of the source plus the
per-session `currentUserId` closure variable and the fresh-id counter
standing for the uuid generator. -/
structure HubState where
  rooms : String → Option Room
  users : List (Nat × User)
  connections : Nat → Option Nat
  activeStreams : String → Option Bool
  chatMessages : String → Option (List ChatMessage)
  sessionUser : Nat → Option Nat
  nextId : Nat

/-- The hub state at process start: empty registries. -/
def initState : HubState where
  rooms := fun _ => none
  users := []
  connections := fun _ => none
  activeStreams := fun _ => none
  chatMessages := fun _ => none
  sessionUser := fun _ => none
  nextId := 0

/-- `broadcastToRoom`: resolve `{broadcaster} ∪ viewers` to connections,
skipping the excluded user and ids with no live connection. -/
def broadcastToRoom (s : HubState) (roomId : String) (msg : OutMsg)
    (excludeUser : Option Nat) : List Output :=
  match s.rooms roomId with
  | none => []
  | some room =>
    let userIds := (match room.broadcaster with
      | some b => [b]
      | none => []) ++ room.viewers
    userIds.filterMap (fun userId =>
      if excludeUser = some userId then none
      else (s.connections userId).map (fun ws => (ws, msg)))

/-- `String.prototype.toLowerCase`, embedded structurally (character-wise
lowercasing) so that it evaluates. -/
def strToLower (x : String) : String := String.mk (x.data.map Char.toLower)

/-- `isUsernameTaken`: some user whose `roomId` matches carries the same
username up to lowercasing. -/
def isUsernameTaken (s : HubState) (roomId : String) (username : String) :
    Bool :=
  match s.rooms roomId with
  | none => false
  | some _ =>
    ((s.users.map (fun p => p.2)).filter (fun u => u.roomId = roomId)).any
      (fun u => strToLower u.username = strToLower username)

/-- `notifyViewerOfBroadcaster`: send `BROADCASTER_READY` to the viewer
when the room has a broadcaster with a user record and the viewer has a
live connection. -/
def notifyViewerOfBroadcaster (s : HubState) (roomId : String)
    (viewerId : Nat) : List Output :=
  match s.rooms roomId with
  | none => []
  | some room =>
    match room.broadcaster with
    | none => []
    | some b =>
      match aget s.users b, s.connections viewerId with
      | some broadcaster, some viewerWs =>
        [(viewerWs, OutMsg.BROADCASTER_READY broadcaster)]
      | _, _ => []

/-- `getRoomWithUsers`: the room together with the resolved user records,
broadcaster first, then viewers in order; unknown ids are skipped. -/
def getRoomWithUsers (s : HubState) (roomId : String) :
    Option RoomWithUsers :=
  (s.rooms roomId).map (fun room =>
    let roomUsers := (match room.broadcaster with
      | some b =>
        match aget s.users b with
        | some broadcaster => [broadcaster]
        | none => []
      | none => []) ++ room.viewers.filterMap (fun viewerId =>
        aget s.users viewerId)
    { room := room, users := roomUsers })

/-- `getRoomMessages`: `slice(-limit)` of the stored list, the whole list
when `limit = 0` (JavaScript `slice(-0)`). -/
def getRoomMessages (s : HubState) (roomId : String) (limit : Nat := 50) :
    List ChatMessage :=
  let messages := (s.chatMessages roomId).getD []
  if limit = 0 then messages else messages.drop (messages.length - limit)

/-- Client-to-hub envelopes, by `type` tag.  For `CHAT_MESSAGE` only the
fields the hub reads from the client message are kept; for the signaling
envelopes the client-supplied `sender` is kept to show it is ignored. -/
inductive InMsg where
  | JOIN_ROOM (roomId : String) (username : String) (role : Role)
  | CHAT_MESSAGE (content : String) (kind : ChatKind)
      (recipientId : Option Nat)
  | STREAM_READY
  | VIEWER_READY
  | SIGNAL (kind : SigKind) (sender : Nat) (receiver : Nat)
      (roomId : String) (data : String)

/-- An external event: an inbound envelope on a session, or a session
close, each stamped with the dispatch-time clock reading. -/
inductive Event where
  | emsg (sid : Nat) (ts : String) (m : InMsg)
  | eclose (sid : Nat) (ts : String)

/-- Lines 196-260: mint the user id, seat the identity in the room and the
registries, then emit `ROOM_JOINED`, the conditional
`BROADCASTER_READY`, and the `USER_JOINED` / `ROOM_STATE` fan-outs. -/
def joinSeat (s : HubState) (sid : Nat) (roomId username : String)
    (role : Role) : HubState × List Output :=
  match s.rooms roomId with
  | none => (s, [])
  | some updatedRoom =>
    let newUserId := s.nextId
    let user : User :=
      { id := newUserId, username := username, role := role, roomId := roomId }
    let room' : Room :=
      match role with
      | Role.broadcaster => { updatedRoom with broadcaster := some newUserId }
      | Role.viewer => { updatedRoom with viewers := updatedRoom.viewers ++ [newUserId] }
    let s' : HubState :=
      { s with
        rooms := fset s.rooms roomId (some room')
        users := aset s.users newUserId user
        connections := fset s.connections newUserId (some sid)
        sessionUser := fset s.sessionUser sid (some newUserId)
        nextId := s.nextId + 1 }
    let roomWithUsers := getRoomWithUsers s' roomId
    let roomMessages := getRoomMessages s' roomId
    let out :=
      [(sid, OutMsg.ROOM_JOINED roomWithUsers user roomMessages)]
      ++ (if role = Role.viewer ∧ room'.broadcaster.isSome
            ∧ (s'.activeStreams roomId).getD false then
            notifyViewerOfBroadcaster s' roomId newUserId
          else [])
      ++ broadcastToRoom s' roomId (OutMsg.USER_JOINED user) (some newUserId)
      ++ broadcastToRoom s' roomId (OutMsg.ROOM_STATE roomWithUsers) none
    (s', out)

/-- The `JOIN_ROOM` case, lines 141-261. -/
def handleJoin (s : HubState) (sid : Nat) (roomId username : String)
    (role : Role) : HubState × List Output :=
  match s.rooms roomId with
  | none =>
    match role with
    | Role.viewer =>
      (s, [(sid, OutMsg.ERROR ErrorCode.ROOM_NOT_FOUND "Room does not exist")])
    | Role.broadcaster =>
      let s1 : HubState :=
        { s with
          rooms := fset s.rooms roomId
            (some { id := roomId, name := "Room " ++ roomId,
                    broadcaster := none, viewers := [] })
          chatMessages := fset s.chatMessages roomId (some []) }
      joinSeat s1 sid roomId username role
  | some room =>
    if isUsernameTaken s roomId username then
      (s, [(sid, OutMsg.ERROR ErrorCode.USER_EXISTS
              "Username is already taken in this room")])
    else if role = Role.broadcaster ∧ room.broadcaster.isSome then
      (s, [(sid, OutMsg.ERROR ErrorCode.BROADCASTER_EXISTS
              "Room already has a broadcaster")])
    else
      joinSeat s sid roomId username role

/-- The `CHAT_MESSAGE` case, lines 263-321. -/
def handleChat (s : HubState) (sid : Nat) (ts : String) (content : String)
    (kind : ChatKind) (recipientId : Option Nat) : HubState × List Output :=
  match s.sessionUser sid with
  | none => (s, [])
  | some currentUserId =>
    match aget s.users currentUserId with
    | none => (s, [])
    | some user =>
      let newMessage : ChatMessage :=
        { id := s.nextId, senderId := user.id,
          senderUsername := user.username, roomId := user.roomId,
          content := content, kind := kind, recipientId := recipientId,
          timestamp := ts }
      let roomMessages := (s.chatMessages user.roomId).getD []
      let s' : HubState :=
        { s with
          chatMessages := fset s.chatMessages user.roomId
            (some (roomMessages ++ [newMessage]))
          nextId := s.nextId + 1 }
      match kind, recipientId with
      | ChatKind.priv, some rid =>
        let toRecipient :=
          match s'.connections rid with
          | some recipientWs =>
            [(recipientWs, OutMsg.CHAT_MESSAGE_RECEIVED newMessage)]
          | none => []
        (s', toRecipient ++ [(sid, OutMsg.CHAT_MESSAGE_RECEIVED newMessage)])
      | _, _ =>
        (s', broadcastToRoom s' user.roomId
          (OutMsg.CHAT_MESSAGE_RECEIVED newMessage) none)

/-- The `STREAM_READY` case, lines 323-339. -/
def handleStreamReady (s : HubState) (sid : Nat) : HubState × List Output :=
  match s.sessionUser sid with
  | none => (s, [])
  | some currentUserId =>
    match aget s.users currentUserId with
    | none => (s, [])
    | some user =>
      if user.role = Role.broadcaster then
        let s' : HubState :=
          { s with activeStreams := fset s.activeStreams user.roomId (some true) }
        match s'.rooms user.roomId with
        | none => (s', [])
        | some room =>
          (s', room.viewers.flatMap (fun viewerId =>
            notifyViewerOfBroadcaster s' user.roomId viewerId))
      else (s, [])

/-- The `VIEWER_READY` case, lines 341-361. -/
def handleViewerReady (s : HubState) (sid : Nat) : HubState × List Output :=
  match s.sessionUser sid with
  | none => (s, [])
  | some currentUserId =>
    match aget s.users currentUserId with
    | none => (s, [])
    | some viewer =>
      if viewer.role = Role.viewer then
        match s.rooms viewer.roomId with
        | none => (s, [])
        | some room =>
          match room.broadcaster with
          | none => (s, [])
          | some b =>
            match s.connections b with
            | some broadcasterWs =>
              (s, [(broadcasterWs, OutMsg.VIEWER_READY viewer)])
            | none => (s, [])
      else (s, [])

/-- The `OFFER` / `ANSWER` / `ICE_CANDIDATE` case, lines 363-382: the
client-supplied `sender` is discarded and replaced by the resolved
`currentUserId`. -/
def handleSignal (s : HubState) (sid : Nat) (kind : SigKind)
    (receiver : Nat) (roomId : String) (data : String) :
    HubState × List Output :=
  match s.sessionUser sid with
  | none => (s, [])
  | some currentUserId =>
    match s.connections receiver with
    | some receiverWs =>
      (s, [(receiverWs,
        OutMsg.SIGNAL kind currentUserId receiver roomId data)])
    | none => (s, [])

/-- The `close` handler, lines 389-441. -/
def handleClose (s : HubState) (sid : Nat) : HubState × List Output :=
  match s.sessionUser sid with
  | none => (s, [])
  | some currentUserId =>
    let finish : HubState → HubState := fun base =>
      { base with
        users := adel base.users currentUserId
        connections := fset base.connections currentUserId none
        sessionUser := fset base.sessionUser sid none }
    match aget s.users currentUserId with
    | none => (finish s, [])
    | some user =>
      let s1 : HubState :=
        match user.role with
        | Role.broadcaster =>
          { s with activeStreams := fset s.activeStreams user.roomId none }
        | Role.viewer => s
      match s1.rooms user.roomId with
      | none => (finish s1, [])
      | some room =>
        let room' : Room :=
          match user.role with
          | Role.broadcaster => { room with broadcaster := none }
          | Role.viewer =>
            { room with viewers := room.viewers.filter (fun i => i ≠ currentUserId) }
        let s2 : HubState :=
          { s1 with rooms := fset s1.rooms user.roomId (some room') }
        let roomWithUsers := getRoomWithUsers s2 user.roomId
        let out1 := broadcastToRoom s2 user.roomId
          (OutMsg.USER_LEFT user roomWithUsers) (some currentUserId)
        if room'.broadcaster = none ∧ room'.viewers = [] then
          let s3 : HubState :=
            { s2 with
              rooms := fset s2.rooms user.roomId none
              chatMessages := fset s2.chatMessages user.roomId none }
          (finish s3, out1)
        else
          let out2 := broadcastToRoom s2 user.roomId
            (OutMsg.ROOM_STATE roomWithUsers) none
          (finish s2, out1 ++ out2)

/-- One dispatcher step: route the event to its handler. -/
def step (s : HubState) (e : Event) : HubState × List Output :=
  match e with
  | Event.emsg sid ts m =>
    match m with
    | InMsg.JOIN_ROOM roomId username role => handleJoin s sid roomId username role
    | InMsg.CHAT_MESSAGE content kind recipientId =>
      handleChat s sid ts content kind recipientId
    | InMsg.STREAM_READY => handleStreamReady s sid
    | InMsg.VIEWER_READY => handleViewerReady s sid
    | InMsg.SIGNAL kind _sender receiver roomId data =>
      handleSignal s sid kind receiver roomId data
  | Event.eclose sid _ts => handleClose s sid

/-- The hub states reachable from process start by any event sequence. -/
inductive Reachable : HubState → Prop where
  | base : Reachable initState
  | next : ∀ s e, Reachable s → Reachable (step s e).1


/-! ### Association-list and map lemmas -/

theorem fset_self {α β : Type} [DecidableEq α] (m : α → Option β) (k : α)
    (v : Option β) : fset m k v k = v := by
  simp [fset]

theorem fset_other {α β : Type} [DecidableEq α] (m : α → Option β)
    {k k' : α} (v : Option β) (h : k' ≠ k) : fset m k v k' = m k' := by
  simp [fset, h]

theorem aget_eq_none_iff {α β : Type} [DecidableEq α] (m : List (α × β))
    (k : α) : aget m k = none ↔ ∀ p ∈ m, p.1 ≠ k := by
  simp [aget, List.find?_eq_none]

theorem aget_mem {α β : Type} [DecidableEq α] {m : List (α × β)} {k : α}
    {v : β} (h : aget m k = some v) : (k, v) ∈ m := by
  unfold aget at h
  cases hf : m.find? (fun p => p.1 = k) with
  | none => rw [hf] at h; simp at h
  | some p =>
    rw [hf] at h
    simp only [Option.map_some'] at h
    have hmem := List.mem_of_find?_eq_some hf
    have hpred := List.find?_some hf
    simp only [decide_eq_true_eq] at hpred
    obtain ⟨p1, p2⟩ := p
    simp only at hpred h
    subst hpred
    simp only [Option.some.injEq] at h
    subst h
    exact hmem

theorem aset_of_fresh {α β : Type} [DecidableEq α] {m : List (α × β)}
    {k : α} (v : β) (h : ∀ p ∈ m, p.1 ≠ k) :
    aset m k v = m ++ [(k, v)] := by
  unfold aset
  rw [if_neg]
  simp only [List.any_eq_true, decide_eq_true_eq, not_exists]
  intro p
  by_cases hp : p ∈ m
  · simp [hp, h p hp]
  · simp [hp]

theorem mem_aset_fresh {α β : Type} [DecidableEq α] {m : List (α × β)}
    {k : α} {v : β} (h : ∀ p ∈ m, p.1 ≠ k) (p : α × β) :
    p ∈ aset m k v ↔ p ∈ m ∨ p = (k, v) := by
  rw [aset_of_fresh v h]
  simp

theorem mem_adel {α β : Type} [DecidableEq α] (m : List (α × β)) (k : α)
    (p : α × β) : p ∈ adel m k ↔ p ∈ m ∧ p.1 ≠ k := by
  simp [adel, List.mem_filter]

/-! ### The inductive invariant

`Inv` packages the registry invariants of the specification that the
dispatcher preserves, together with the bookkeeping facts (fresh-id
bound, key/field agreement, every user is seated in its room) needed to
push them through a step. -/

/-- Registry invariants maintained by every dispatcher step. -/
structure Inv (s : HubState) : Prop where
  idBound : ∀ p ∈ s.users, p.1 < s.nextId
  key : ∀ p ∈ s.users, p.2.id = p.1
  seated : ∀ p ∈ s.users, ∃ room, s.rooms p.2.roomId = some room ∧
    ((p.2.role = Role.broadcaster ∧ room.broadcaster = some p.1) ∨
     (p.2.role = Role.viewer ∧ p.1 ∈ room.viewers))
  stream : ∀ r, s.activeStreams r = some true →
    ∃ room, s.rooms r = some room ∧ room.broadcaster.isSome
  nonempty : ∀ r room, s.rooms r = some room →
    room.broadcaster.isSome ∨ room.viewers ≠ []
  chatNone : ∀ r, s.rooms r = none → s.chatMessages r = none

theorem inv_init : Inv initState where
  idBound := by intro p hp; simp [initState] at hp
  key := by intro p hp; simp [initState] at hp
  seated := by intro p hp; simp [initState] at hp
  stream := by intro r hr; simp [initState] at hr
  nonempty := by intro r room hr; simp [initState] at hr
  chatNone := by intro r hr; simp [initState]

theorem joinSeat_inv (s : HubState) (sid : Nat) (roomId username : String)
    (role : Role) (room0 : Room) (hroom : s.rooms roomId = some room0)
    (hidB : ∀ p ∈ s.users, p.1 < s.nextId)
    (hkey : ∀ p ∈ s.users, p.2.id = p.1)
    (hseat : ∀ p ∈ s.users, ∃ room, s.rooms p.2.roomId = some room ∧
      ((p.2.role = Role.broadcaster ∧ room.broadcaster = some p.1) ∨
       (p.2.role = Role.viewer ∧ p.1 ∈ room.viewers)))
    (hstream : ∀ r, s.activeStreams r = some true →
      ∃ room, s.rooms r = some room ∧ room.broadcaster.isSome)
    (hne : ∀ r room, r ≠ roomId → s.rooms r = some room →
      room.broadcaster.isSome ∨ room.viewers ≠ [])
    (hchat : ∀ r, s.rooms r = none → s.chatMessages r = none)
    (hcompat : role = Role.broadcaster → room0.broadcaster = none) :
    Inv (joinSeat s sid roomId username role).1 := by
  have hfresh : ∀ p ∈ s.users, p.1 ≠ s.nextId :=
    fun p hp => Nat.ne_of_lt (hidB p hp)
  unfold joinSeat
  rw [hroom]
  simp only
  constructor
  case idBound =>
    intro p hp
    dsimp only at hp ⊢
    rw [mem_aset_fresh hfresh] at hp
    rcases hp with hp | hp
    · exact Nat.lt_succ_of_lt (hidB p hp)
    · subst hp; exact Nat.lt_succ_self _
  case key =>
    intro p hp
    dsimp only at hp
    rw [mem_aset_fresh hfresh] at hp
    rcases hp with hp | hp
    · exact hkey p hp
    · subst hp; rfl
  case seated =>
    intro p hp
    dsimp only at hp ⊢
    rw [mem_aset_fresh hfresh] at hp
    rcases hp with hp | hp
    · obtain ⟨room, hr, hcase⟩ := hseat p hp
      by_cases heq : p.2.roomId = roomId
      · rw [heq] at hr
        rw [hr] at hroom
        injection hroom with hroom
        subst hroom
        refine ⟨_, by rw [heq]; exact fset_self _ _ _, ?_⟩
        rcases hcase with ⟨hrole, hb⟩ | ⟨hrole, hv⟩
        · cases role with
          | broadcaster =>
            exact absurd hb (by rw [hcompat rfl]; simp)
          | viewer => exact Or.inl ⟨hrole, hb⟩
        · cases role with
          | broadcaster => exact Or.inr ⟨hrole, hv⟩
          | viewer => exact Or.inr ⟨hrole, List.mem_append_left _ hv⟩
      · exact ⟨room, by rw [fset_other _ _ heq]; exact hr, hcase⟩
    · subst hp
      refine ⟨_, fset_self _ _ _, ?_⟩
      cases role with
      | broadcaster => exact Or.inl ⟨rfl, rfl⟩
      | viewer => exact Or.inr ⟨rfl, List.mem_append_right _ (by simp)⟩
  case stream =>
    intro r hr
    dsimp only at hr ⊢
    by_cases heq : r = roomId
    · subst heq
      obtain ⟨room, hr', hb⟩ := hstream r hr
      rw [hr'] at hroom
      injection hroom with hroom
      subst hroom
      refine ⟨_, fset_self _ _ _, ?_⟩
      cases role with
      | broadcaster => rfl
      | viewer => exact hb
    · obtain ⟨room, hr', hb⟩ := hstream r hr
      exact ⟨room, by rw [fset_other _ _ heq]; exact hr', hb⟩
  case nonempty =>
    intro r room hr
    dsimp only at hr
    by_cases heq : r = roomId
    · subst heq
      rw [fset_self] at hr
      injection hr with hr
      subst hr
      cases role with
      | broadcaster => exact Or.inl rfl
      | viewer => exact Or.inr (by simp)
    · rw [fset_other _ _ heq] at hr
      exact hne r room heq hr
  case chatNone =>
    intro r hr
    dsimp only at hr ⊢
    by_cases heq : r = roomId
    · subst heq
      rw [fset_self] at hr
      exact absurd hr (by simp)
    · rw [fset_other _ _ heq] at hr
      exact hchat r hr

theorem handleJoin_inv (s : HubState) (sid : Nat)
    (roomId username : String) (role : Role) (hinv : Inv s) :
    Inv (handleJoin s sid roomId username role).1 := by
  unfold handleJoin
  cases hroom : s.rooms roomId with
  | none =>
    cases role with
    | viewer => exact hinv
    | broadcaster =>
      apply joinSeat_inv _ _ _ username _
        { id := roomId, name := "Room " ++ roomId,
          broadcaster := none, viewers := [] }
        (fset_self _ _ _)
      · exact hinv.idBound
      · exact hinv.key
      · intro p hp
        obtain ⟨room, hr, hcase⟩ := hinv.seated p hp
        have hne' : p.2.roomId ≠ roomId := by
          intro h
          rw [h, hroom] at hr
          exact absurd hr (by simp)
        exact ⟨room, by dsimp only; rw [fset_other _ _ hne']; exact hr, hcase⟩
      · intro r hr
        obtain ⟨room, hr', hb⟩ := hinv.stream r hr
        have hne' : r ≠ roomId := by
          intro h
          rw [h, hroom] at hr'
          exact absurd hr' (by simp)
        exact ⟨room, by dsimp only; rw [fset_other _ _ hne']; exact hr', hb⟩
      · intro r room hne' hr
        dsimp only at hr
        rw [fset_other _ _ hne'] at hr
        exact hinv.nonempty r room hr
      · intro r hr
        dsimp only at hr ⊢
        by_cases heq : r = roomId
        · subst heq
          rw [fset_self] at hr
          exact absurd hr (by simp)
        · rw [fset_other _ _ heq] at hr
          rw [fset_other _ _ heq]
          exact hinv.chatNone r hr
      · intro _; rfl
  | some room =>
    by_cases htaken : isUsernameTaken s roomId username
    · simp only [htaken, if_true]
      exact hinv
    · simp only [htaken, if_false, Bool.false_eq_true]
      by_cases hguard : role = Role.broadcaster ∧ room.broadcaster.isSome
      · rw [if_pos hguard]
        exact hinv
      · rw [if_neg hguard]
        apply joinSeat_inv _ _ _ username _ room hroom hinv.idBound hinv.key
          hinv.seated hinv.stream
          (fun r room _ hr => hinv.nonempty r room hr) hinv.chatNone
        intro hrole
        cases hb : room.broadcaster with
        | none => rfl
        | some b => exact absurd ⟨hrole, by rw [hb]; rfl⟩ hguard


theorem handleChat_inv (s : HubState) (sid : Nat) (ts content : String)
    (kind : ChatKind) (recipientId : Option Nat) (hinv : Inv s) :
    Inv (handleChat s sid ts content kind recipientId).1 := by
  unfold handleChat
  split
  · exact hinv
  rename_i currentUserId hcu
  split
  · exact hinv
  rename_i user huser
  have hmem : (currentUserId, user) ∈ s.users := aget_mem huser
  obtain ⟨room, hroom, -⟩ := hinv.seated _ hmem
  have hpost : ∀ (t : HubState), t.rooms = s.rooms → t.users = s.users →
      t.activeStreams = s.activeStreams →
      t.chatMessages = fset s.chatMessages user.roomId
        (some ((s.chatMessages user.roomId).getD [] ++
          [{ id := s.nextId, senderId := user.id,
             senderUsername := user.username, roomId := user.roomId,
             content := content, kind := kind,
             recipientId := recipientId, timestamp := ts }])) →
      t.nextId = s.nextId + 1 → Inv t := by
    intro t hr hu ha hc hn
    constructor
    case idBound =>
      intro p hp
      rw [hu] at hp
      rw [hn]
      exact Nat.lt_succ_of_lt (hinv.idBound p hp)
    case key =>
      intro p hp
      rw [hu] at hp
      exact hinv.key p hp
    case seated =>
      intro p hp
      rw [hu] at hp
      rw [hr]
      exact hinv.seated p hp
    case stream =>
      intro r hs
      rw [ha] at hs
      rw [hr]
      exact hinv.stream r hs
    case nonempty =>
      intro r rm hrm
      rw [hr] at hrm
      exact hinv.nonempty r rm hrm
    case chatNone =>
      intro r hrn
      rw [hr] at hrn
      rw [hc]
      have hner : r ≠ user.roomId := by
        intro h
        rw [h, hroom] at hrn
        exact absurd hrn (by simp)
      rw [fset_other _ _ hner]
      exact hinv.chatNone r hrn
  dsimp only
  split
  · dsimp only
    exact hpost _ rfl rfl rfl rfl rfl
  · dsimp only
    exact hpost _ rfl rfl rfl rfl rfl

theorem handleStreamReady_inv (s : HubState) (sid : Nat) (hinv : Inv s) :
    Inv (handleStreamReady s sid).1 := by
  unfold handleStreamReady
  split
  · exact hinv
  rename_i currentUserId hcu
  split
  · exact hinv
  rename_i user huser
  split
  case isFalse => exact hinv
  case isTrue hrole =>
  have hmem : (currentUserId, user) ∈ s.users := aget_mem huser
  obtain ⟨room, hroom, hcase⟩ := hinv.seated _ hmem
  have hb : room.broadcaster = some currentUserId := by
    rcases hcase with ⟨-, hb⟩ | ⟨hv, -⟩
    · exact hb
    · rw [hrole] at hv; exact absurd hv (by simp)
  have hpost : ∀ (t : HubState), t.rooms = s.rooms →
      t.users = s.users →
      t.activeStreams = fset s.activeStreams user.roomId (some true) →
      t.chatMessages = s.chatMessages → t.nextId = s.nextId →
      Inv t := by
    intro t hr hu ha hc hn
    constructor
    case idBound => intro p hp; rw [hu] at hp; rw [hn]; exact hinv.idBound p hp
    case key => intro p hp; rw [hu] at hp; exact hinv.key p hp
    case seated => intro p hp; rw [hu] at hp; rw [hr]; exact hinv.seated p hp
    case stream =>
      intro r hs
      rw [ha] at hs
      rw [hr]
      by_cases heq : r = user.roomId
      · subst heq
        exact ⟨room, hroom, by rw [hb]; rfl⟩
      · rw [fset_other _ _ heq] at hs
        exact hinv.stream r hs
    case nonempty => intro r rm hrm; rw [hr] at hrm; exact hinv.nonempty r rm hrm
    case chatNone => intro r hrn; rw [hr] at hrn; rw [hc]; exact hinv.chatNone r hrn
  dsimp only
  split
  · exact hpost _ rfl rfl rfl rfl rfl
  · exact hpost _ rfl rfl rfl rfl rfl

theorem handleViewerReady_state (s : HubState) (sid : Nat) :
    (handleViewerReady s sid).1 = s := by
  unfold handleViewerReady
  repeat' split
  all_goals rfl

theorem handleSignal_state (s : HubState) (sid : Nat) (kind : SigKind)
    (receiver : Nat) (roomId data : String) :
    (handleSignal s sid kind receiver roomId data).1 = s := by
  unfold handleSignal
  repeat' split
  all_goals rfl


theorem fset_fset {α β : Type} [DecidableEq α] (m : α → Option β) (k : α)
    (v w : Option β) : fset (fset m k v) k w = fset m k w := by
  funext x
  unfold fset
  by_cases h : x = k <;> simp [h]

theorem fset_eval {α β : Type} [DecidableEq α] (m : α → Option β) (k : α) :
    fset m k (m k) = m := by
  funext x
  unfold fset
  by_cases h : x = k <;> simp [h]

/-- Invariant for the state left by the close handler, parametric in the
value the departed room slot takes (`room1opt`), in the stream flag and
chat slot at that room, once the departed user is removed. -/
theorem close_post_inv (s : HubState) (cu sid : Nat) (R : String)
    (room1opt : Option Room) (a1 : Option Bool)
    (c1 : Option (List ChatMessage)) (hinv : Inv s)
    (hseat1 : ∀ p ∈ s.users, p.1 ≠ cu → p.2.roomId = R →
      ∃ room1, room1opt = some room1 ∧
        ((p.2.role = Role.broadcaster ∧ room1.broadcaster = some p.1) ∨
         (p.2.role = Role.viewer ∧ p.1 ∈ room1.viewers)))
    (hstream1 : a1 = some true →
      ∃ room1, room1opt = some room1 ∧ room1.broadcaster.isSome)
    (hne1 : ∀ room1, room1opt = some room1 →
      room1.broadcaster.isSome ∨ room1.viewers ≠ [])
    (hchat1 : room1opt = none → c1 = none) :
    Inv { rooms := fset s.rooms R room1opt,
          users := adel s.users cu,
          connections := fset s.connections cu none,
          activeStreams := fset s.activeStreams R a1,
          chatMessages := fset s.chatMessages R c1,
          sessionUser := fset s.sessionUser sid none,
          nextId := s.nextId } := by
  constructor
  case idBound =>
    intro p hp
    rw [mem_adel] at hp
    exact hinv.idBound p hp.1
  case key =>
    intro p hp
    rw [mem_adel] at hp
    exact hinv.key p hp.1
  case seated =>
    intro p hp
    rw [mem_adel] at hp
    obtain ⟨hpmem, hpne⟩ := hp
    dsimp only
    by_cases heq : p.2.roomId = R
    · obtain ⟨room1, hopt, hcase⟩ := hseat1 p hpmem hpne heq
      exact ⟨room1, by rw [heq, fset_self, hopt], hcase⟩
    · obtain ⟨room, hr, hcase⟩ := hinv.seated p hpmem
      exact ⟨room, by rw [fset_other _ _ heq]; exact hr, hcase⟩
  case stream =>
    intro r hs
    dsimp only at hs ⊢
    by_cases heq : r = R
    · subst heq
      rw [fset_self] at hs
      obtain ⟨room1, hopt, hb⟩ := hstream1 hs
      exact ⟨room1, by rw [fset_self, hopt], hb⟩
    · rw [fset_other _ _ heq] at hs
      obtain ⟨room, hr, hb⟩ := hinv.stream r hs
      exact ⟨room, by rw [fset_other _ _ heq]; exact hr, hb⟩
  case nonempty =>
    intro r room hr
    dsimp only at hr
    by_cases heq : r = R
    · subst heq
      rw [fset_self] at hr
      exact hne1 room hr
    · rw [fset_other _ _ heq] at hr
      exact hinv.nonempty r room hr
  case chatNone =>
    intro r hr
    dsimp only at hr ⊢
    by_cases heq : r = R
    · subst heq
      rw [fset_self] at hr ⊢
      exact hchat1 hr
    · rw [fset_other _ _ heq] at hr ⊢
      exact hinv.chatNone r hr

theorem handleClose_inv (s : HubState) (sid : Nat) (hinv : Inv s) :
    Inv (handleClose s sid).1 := by
  unfold handleClose
  split
  · exact hinv
  rename_i currentUserId hcu
  dsimp only
  split
  case _ huser =>
    constructor
    case idBound =>
      intro p hp
      rw [mem_adel] at hp
      exact hinv.idBound p hp.1
    case key =>
      intro p hp
      rw [mem_adel] at hp
      exact hinv.key p hp.1
    case seated =>
      intro p hp
      rw [mem_adel] at hp
      exact hinv.seated p hp.1
    case stream => exact hinv.stream
    case nonempty => exact hinv.nonempty
    case chatNone => exact hinv.chatNone
  rename_i user huser
  have hmem : (currentUserId, user) ∈ s.users := aget_mem huser
  obtain ⟨room0, hroom0, hcase0⟩ := hinv.seated _ hmem
  cases hrole : user.role with
  | broadcaster =>
    rw [hrole] at hcase0
    have hb : room0.broadcaster = some currentUserId := by
      rcases hcase0 with ⟨-, hb⟩ | ⟨hv, -⟩
      · exact hb
      · exact absurd hv (by simp)
    dsimp only
    rw [hroom0]
    dsimp only
    split
    case isTrue hdel =>
      rw [fset_fset]
      rw [show s.chatMessages = fset s.chatMessages user.roomId
        (s.chatMessages user.roomId) from (fset_eval _ _).symm]
      rw [fset_fset]
      apply close_post_inv s currentUserId sid user.roomId none none none hinv
      · intro p hpmem hpne heq
        obtain ⟨room, hr, hcase⟩ := hinv.seated p hpmem
        rw [heq, hroom0] at hr
        injection hr with hr
        subst hr
        rcases hcase with ⟨-, hbp⟩ | ⟨-, hvp⟩
        · rw [hb] at hbp
          injection hbp with hbp
          exact absurd hbp.symm hpne
        · have hvempty : room0.viewers = [] := hdel.2
          rw [hvempty] at hvp
          exact absurd hvp (by simp)
      · intro h; exact absurd h (by simp)
      · intro room1 h; exact absurd h (by simp)
      · intro _; rfl
    case isFalse hkeep =>
      rw [show s.chatMessages = fset s.chatMessages user.roomId
        (s.chatMessages user.roomId) from (fset_eval _ _).symm]
      apply close_post_inv s currentUserId sid user.roomId
        (some { room0 with broadcaster := none }) none
        (s.chatMessages user.roomId) hinv
      · intro p hpmem hpne heq
        obtain ⟨room, hr, hcase⟩ := hinv.seated p hpmem
        rw [heq, hroom0] at hr
        injection hr with hr
        subst hr
        refine ⟨_, rfl, ?_⟩
        rcases hcase with ⟨-, hbp⟩ | ⟨hvrole, hvp⟩
        · rw [hb] at hbp
          injection hbp with hbp
          exact absurd hbp.symm hpne
        · exact Or.inr ⟨hvrole, hvp⟩
      · intro h; exact absurd h (by simp)
      · intro room1 h
        injection h with h
        subst h
        right
        intro hv
        exact hkeep ⟨rfl, hv⟩
      · intro h; exact absurd h (by simp)
  | viewer =>
    rw [hrole] at hcase0
    have hv : currentUserId ∈ room0.viewers := by
      rcases hcase0 with ⟨hbr, -⟩ | ⟨-, hv⟩
      · exact absurd hbr (by simp)
      · exact hv
    dsimp only
    rw [hroom0]
    dsimp only
    split
    case isTrue hdel =>
      rw [fset_fset]
      rw [show s.activeStreams = fset s.activeStreams user.roomId
        (s.activeStreams user.roomId) from (fset_eval _ _).symm]
      apply close_post_inv s currentUserId sid user.roomId none
        (s.activeStreams user.roomId) none hinv
      · intro p hpmem hpne heq
        obtain ⟨room, hr, hcase⟩ := hinv.seated p hpmem
        rw [heq, hroom0] at hr
        injection hr with hr
        subst hr
        rcases hcase with ⟨-, hbp⟩ | ⟨-, hvp⟩
        · rw [hdel.1] at hbp
          exact absurd hbp (by simp)
        · have : p.1 ∈ room0.viewers.filter (fun i => i ≠ currentUserId) := by
            rw [List.mem_filter]
            exact ⟨hvp, by simp [hpne]⟩
          rw [hdel.2] at this
          exact absurd this (by simp)
      · intro h
        obtain ⟨room, hr, hbr⟩ := hinv.stream user.roomId h
        rw [hroom0] at hr
        injection hr with hr
        subst hr
        rw [hdel.1] at hbr
        exact absurd hbr (by simp)
      · intro room1 h; exact absurd h (by simp)
      · intro _; rfl
    case isFalse hkeep =>
      rw [show s.activeStreams = fset s.activeStreams user.roomId
        (s.activeStreams user.roomId) from (fset_eval _ _).symm]
      rw [show s.chatMessages = fset s.chatMessages user.roomId
        (s.chatMessages user.roomId) from (fset_eval _ _).symm]
      apply close_post_inv s currentUserId sid user.roomId
        (some { room0 with
          viewers := room0.viewers.filter (fun i => i ≠ currentUserId) })
        (s.activeStreams user.roomId) (s.chatMessages user.roomId) hinv
      · intro p hpmem hpne heq
        obtain ⟨room, hr, hcase⟩ := hinv.seated p hpmem
        rw [heq, hroom0] at hr
        injection hr with hr
        subst hr
        refine ⟨_, rfl, ?_⟩
        rcases hcase with ⟨hbrole, hbp⟩ | ⟨hvrole, hvp⟩
        · exact Or.inl ⟨hbrole, hbp⟩
        · refine Or.inr ⟨hvrole, ?_⟩
          rw [List.mem_filter]
          exact ⟨hvp, by simp [hpne]⟩
      · intro h
        obtain ⟨room, hr, hbr⟩ := hinv.stream user.roomId h
        rw [hroom0] at hr
        injection hr with hr
        subst hr
        exact ⟨_, rfl, hbr⟩
      · intro room1 h
        injection h with h
        subst h
        by_cases hbr : room0.broadcaster.isSome
        · exact Or.inl hbr
        · right
          intro hvempty
          apply hkeep
          constructor
          · cases hbrc : room0.broadcaster with
            | none => rfl
            | some b => rw [hbrc] at hbr; exact absurd rfl hbr
          · exact hvempty
      · intro h; exact absurd h (by simp)


theorem step_inv (s : HubState) (e : Event) (hinv : Inv s) :
    Inv (step s e).1 := by
  cases e with
  | emsg sid ts m =>
    cases m with
    | JOIN_ROOM roomId username role =>
      simp only [step]
      exact handleJoin_inv s sid roomId username role hinv
    | CHAT_MESSAGE content kind recipientId =>
      simp only [step]
      exact handleChat_inv s sid ts content kind recipientId hinv
    | STREAM_READY =>
      simp only [step]
      exact handleStreamReady_inv s sid hinv
    | VIEWER_READY =>
      simp only [step]
      rw [handleViewerReady_state]
      exact hinv
    | SIGNAL kind sender receiver roomId data =>
      simp only [step]
      rw [handleSignal_state]
      exact hinv
  | eclose sid ts =>
    simp only [step]
    exact handleClose_inv s sid hinv

theorem reachable_inv (s : HubState) (h : Reachable s) : Inv s := by
  induction h with
  | base => exact inv_init
  | next s e _ ih => exact step_inv s e ih

theorem aget_aset_fresh {α β : Type} [DecidableEq α] {m : List (α × β)}
    {k : α} (v : β) (h : ∀ p ∈ m, p.1 ≠ k) :
    aget (aset m k v) k = some v := by
  rw [aset_of_fresh v h]
  induction m with
  | nil => simp [aget]
  | cons p m ih =>
    have hp : p.1 ≠ k := h p (by simp)
    have htail : ∀ q ∈ m, q.1 ≠ k := fun q hq => h q (by simp [hq])
    simp only [List.cons_append]
    unfold aget at ih ⊢
    rw [List.find?_cons_of_neg]
    · exact ih htail
    · simp [hp]

theorem aget_aset_other {α β : Type} [DecidableEq α] {m : List (α × β)}
    {k k' : α} (v : β) (hfresh : ∀ p ∈ m, p.1 ≠ k) (h : k' ≠ k) :
    aget (aset m k v) k' = aget m k' := by
  rw [aset_of_fresh v hfresh]
  induction m with
  | nil =>
    simp only [List.nil_append, aget]
    rw [List.find?_cons_of_neg]
    simp only [decide_eq_true_eq]
    exact fun hk => h hk.symm
  | cons p m ih =>
    have htail : ∀ q ∈ m, q.1 ≠ k := fun q hq => hfresh q (by simp [hq])
    unfold aget at ih ⊢
    simp only [List.cons_append]
    by_cases hp : p.1 = k'
    · rw [List.find?_cons_of_pos, List.find?_cons_of_pos] <;> simp [hp]
    · rw [List.find?_cons_of_neg, List.find?_cons_of_neg]
      · exact ih htail
      · simp [hp]
      · simp [hp]


/-! ### Concrete traces used as witnesses -/

/-- Session 0 creates room `r` as broadcaster `Alice`. -/
def evAliceJoins : Event :=
  Event.emsg 0 "T0" (InMsg.JOIN_ROOM "r" "Alice" Role.broadcaster)

/-- The hub state after `evAliceJoins` from start. -/
def stateA : HubState := (step initState evAliceJoins).1

theorem reachable_stateA : Reachable stateA :=
  Reachable.next _ _ Reachable.base

/-- Session 1 joins room `r` as viewer `Bob`. -/
def evBobJoins : Event :=
  Event.emsg 1 "T1" (InMsg.JOIN_ROOM "r" "Bob" Role.viewer)

/-- The hub state after Alice and Bob joined. -/
def stateB : HubState := (step stateA evBobJoins).1

theorem reachable_stateB : Reachable stateB :=
  Reachable.next _ _ reachable_stateA

/-- Session 2 creates room `q` as broadcaster `Carol`. -/
def evCarolJoins : Event :=
  Event.emsg 2 "T2" (InMsg.JOIN_ROOM "q" "Carol" Role.broadcaster)

/-- The state after Alice (room `r`), Bob (room `r`) and Carol (room `q`). -/
def stateC : HubState := (step stateB evCarolJoins).1

theorem reachable_stateC : Reachable stateC :=
  Reachable.next _ _ reachable_stateB

/-! ### Claims -/

/-- C2: an OFFER / ANSWER / ICE_CANDIDATE envelope from a session bound to
identity `u` is re-emitted exactly once to the receiver with the payload
sender rewritten to `u` (whatever `sender` the client supplied) and
`receiver`, `roomId` and `data` forwarded unchanged, with no state change;
when the receiver has no live connection nothing is emitted and the state
is unchanged. -/
theorem signal_relay_rewrites_sender (s : HubState) (sid u : Nat)
    (ts : String) (k : SigKind) (sender receiver : Nat)
    (roomId data : String) (h : s.sessionUser sid = some u) :
    (∀ ws, s.connections receiver = some ws →
      step s (Event.emsg sid ts (InMsg.SIGNAL k sender receiver roomId data)) =
        (s, [(ws, OutMsg.SIGNAL k u receiver roomId data)])) ∧
    (s.connections receiver = none →
      step s (Event.emsg sid ts (InMsg.SIGNAL k sender receiver roomId data)) =
        (s, [])) := by
  constructor
  · intro ws hws
    simp only [step, handleSignal, h, hws]
  · intro hnone
    simp only [step, handleSignal, h, hnone]

theorem signal_relay_rewrites_sender_witness :
    step stateA (Event.emsg 0 "T9" (InMsg.SIGNAL SigKind.OFFER 77 0 "r" "D")) =
      (stateA, [(0, OutMsg.SIGNAL SigKind.OFFER 0 0 "r" "D")]) :=
  (signal_relay_rewrites_sender stateA 0 0 "T9" SigKind.OFFER 77 0 "r" "D"
    (by rfl)).1 0 (by rfl)

/-- C3: a JOIN_ROOM for an absent room is rejected with ROOM_NOT_FOUND and
leaves the state unchanged when the requested role is viewer; with role
broadcaster it creates the room with no viewers and an empty chat log and
seats the requester as its broadcaster, registering the identity and the
connection. -/
theorem join_absent_room (s : HubState) (sid : Nat)
    (ts roomId username : String) (hreach : Reachable s)
    (h : s.rooms roomId = none) :
    step s (Event.emsg sid ts (InMsg.JOIN_ROOM roomId username Role.viewer)) =
      (s, [(sid, OutMsg.ERROR ErrorCode.ROOM_NOT_FOUND "Room does not exist")]) ∧
    (step s (Event.emsg sid ts
        (InMsg.JOIN_ROOM roomId username Role.broadcaster))).1.rooms roomId =
      some { id := roomId, name := "Room " ++ roomId,
             broadcaster := some s.nextId, viewers := [] } ∧
    (step s (Event.emsg sid ts
        (InMsg.JOIN_ROOM roomId username Role.broadcaster))).1.chatMessages
        roomId = some [] ∧
    aget (step s (Event.emsg sid ts
        (InMsg.JOIN_ROOM roomId username Role.broadcaster))).1.users s.nextId =
      some { id := s.nextId, username := username, role := Role.broadcaster,
             roomId := roomId } ∧
    (step s (Event.emsg sid ts
        (InMsg.JOIN_ROOM roomId username Role.broadcaster))).1.connections
        s.nextId = some sid ∧
    (step s (Event.emsg sid ts
        (InMsg.JOIN_ROOM roomId username Role.broadcaster))).1.sessionUser
        sid = some s.nextId := by
  have hinv := reachable_inv s hreach
  have hfresh : ∀ p ∈ s.users, p.1 ≠ s.nextId :=
    fun p hp => Nat.ne_of_lt (hinv.idBound p hp)
  refine ⟨?_, ?_, ?_, ?_, ?_, ?_⟩
  · simp only [step, handleJoin, h]
  · simp only [step, handleJoin, h, joinSeat, fset_self]
  · simp only [step, handleJoin, h, joinSeat, fset_self]
  · simp only [step, handleJoin, h, joinSeat, fset_self]
    exact aget_aset_fresh _ hfresh
  · simp only [step, handleJoin, h, joinSeat, fset_self]
  · simp only [step, handleJoin, h, joinSeat, fset_self]

theorem join_absent_room_witness :
    step initState (Event.emsg 0 "T0" (InMsg.JOIN_ROOM "r" "Alice" Role.viewer)) =
      (initState,
        [(0, OutMsg.ERROR ErrorCode.ROOM_NOT_FOUND "Room does not exist")]) ∧
    stateA.rooms "r" =
      some { id := "r", name := "Room r", broadcaster := some 0, viewers := [] } :=
  ⟨(join_absent_room initState 0 "T0" "r" "Alice" Reachable.base rfl).1,
   (join_absent_room initState 0 "T0" "r" "Alice" Reachable.base rfl).2.1⟩

/-- C5: a JOIN_ROOM naming an existing room with a username equal, up to
lowercasing, to the username of a user of that room is rejected with
USER_EXISTS, and the registries and session identity state are left
unchanged (the state is returned as is). -/
theorem join_username_taken (s : HubState) (sid : Nat)
    (ts roomId username : String) (role : Role) (room : Room)
    (p : Nat × User) (hroom : s.rooms roomId = some room)
    (hp : p ∈ s.users) (hprid : p.2.roomId = roomId)
    (hname : strToLower p.2.username = strToLower username) :
    step s (Event.emsg sid ts (InMsg.JOIN_ROOM roomId username role)) =
      (s, [(sid, OutMsg.ERROR ErrorCode.USER_EXISTS
            "Username is already taken in this room")]) := by
  have htaken : isUsernameTaken s roomId username = true := by
    unfold isUsernameTaken
    rw [hroom]
    rw [List.any_eq_true]
    refine ⟨p.2, ?_, ?_⟩
    · rw [List.mem_filter]
      refine ⟨List.mem_map_of_mem _ hp, by simp [hprid]⟩
    · simp [hname]
  simp only [step, handleJoin, hroom, htaken, if_true]

theorem join_username_taken_witness :
    step stateA (Event.emsg 1 "T1" (InMsg.JOIN_ROOM "r" "ALICE" Role.viewer)) =
      (stateA, [(1, OutMsg.ERROR ErrorCode.USER_EXISTS
            "Username is already taken in this room")]) :=
  join_username_taken stateA 1 "T1" "r" "ALICE" Role.viewer
    { id := "r", name := "Room r", broadcaster := some 0, viewers := [] }
    (0, { id := 0, username := "Alice", role := Role.broadcaster, roomId := "r" })
    (by rfl) (by decide) (by rfl) (by decide)


/-- C1 counterexample: a JOIN_ROOM with role broadcaster addressed to an
existing room whose broadcaster is set is not always rejected with
BROADCASTER_EXISTS: when the username is also taken the handler replies
USER_EXISTS instead, because the username check precedes the broadcaster
check. -/
theorem join_broadcaster_exists_counterexample :
    stateA.rooms "r" =
      some { id := "r", name := "Room r", broadcaster := some 0,
             viewers := [] } ∧
    (step stateA (Event.emsg 1 "T1"
        (InMsg.JOIN_ROOM "r" "alice" Role.broadcaster))).2 =
      [(1, OutMsg.ERROR ErrorCode.USER_EXISTS
          "Username is already taken in this room")] := by
  constructor
  · rfl
  · decide

/-- C1 (amended): in every reachable state a room has at most one
broadcaster (two broadcaster-role users of one room coincide), and a
JOIN_ROOM with role broadcaster for an existing room whose broadcaster is
set, with a username not already taken, is rejected with
BROADCASTER_EXISTS and changes nothing. -/
theorem broadcaster_unique_and_second_rejected (s : HubState)
    (hreach : Reachable s) :
    (∀ p q, p ∈ s.users → q ∈ s.users → p.2.role = Role.broadcaster →
      q.2.role = Role.broadcaster → p.2.roomId = q.2.roomId → p.1 = q.1) ∧
    (∀ sid : Nat, ∀ ts roomId username : String, ∀ room : Room,
      s.rooms roomId = some room → room.broadcaster.isSome = true →
      isUsernameTaken s roomId username = false →
      step s (Event.emsg sid ts
          (InMsg.JOIN_ROOM roomId username Role.broadcaster)) =
        (s, [(sid, OutMsg.ERROR ErrorCode.BROADCASTER_EXISTS
              "Room already has a broadcaster")])) := by
  have hinv := reachable_inv s hreach
  constructor
  · intro p q hp hq hpr hqr hrr
    obtain ⟨rp, hrp, hcp⟩ := hinv.seated p hp
    obtain ⟨rq, hrq, hcq⟩ := hinv.seated q hq
    rw [hrr] at hrp
    rw [hrp] at hrq
    injection hrq with hrq
    subst hrq
    have hbp : rp.broadcaster = some p.1 := by
      rcases hcp with ⟨-, h⟩ | ⟨hv, -⟩
      · exact h
      · rw [hpr] at hv; exact absurd hv (by simp)
    have hbq : rp.broadcaster = some q.1 := by
      rcases hcq with ⟨-, h⟩ | ⟨hv, -⟩
      · exact h
      · rw [hqr] at hv; exact absurd hv (by simp)
    rw [hbp] at hbq
    injection hbq with hbq
  · intro sid ts roomId username room hroom hb htaken
    simp only [step, handleJoin, hroom, htaken, Bool.false_eq_true,
      if_false, hb, and_self, if_true, and_true]

theorem broadcaster_second_rejected_witness :
    step stateA (Event.emsg 1 "T1"
        (InMsg.JOIN_ROOM "r" "Bob" Role.broadcaster)) =
      (stateA, [(1, OutMsg.ERROR ErrorCode.BROADCASTER_EXISTS
            "Room already has a broadcaster")]) :=
  (broadcaster_unique_and_second_rejected stateA reachable_stateA).2
    1 "T1" "r" "Bob"
    { id := "r", name := "Room r", broadcaster := some 0, viewers := [] }
    (by rfl) (by rfl) (by decide)

/-- C4: in every reachable state an active stream flag implies the room
exists and its broadcaster is set; STREAM_READY from a session bound to a
broadcaster-role user raises the flag of that room to true, and the close
of that session removes the flag. -/
theorem stream_active_implies_broadcaster (s : HubState)
    (hreach : Reachable s) :
    (∀ r, s.activeStreams r = some true →
      ∃ room, s.rooms r = some room ∧ room.broadcaster.isSome) ∧
    (∀ sid u : Nat, ∀ ts : String, ∀ user : User,
      s.sessionUser sid = some u → aget s.users u = some user →
      user.role = Role.broadcaster →
      (step s (Event.emsg sid ts InMsg.STREAM_READY)).1.activeStreams
        user.roomId = some true) ∧
    (∀ sid u : Nat, ∀ ts : String, ∀ user : User,
      s.sessionUser sid = some u → aget s.users u = some user →
      user.role = Role.broadcaster →
      (step s (Event.eclose sid ts)).1.activeStreams user.roomId = none) := by
  have hinv := reachable_inv s hreach
  refine ⟨hinv.stream, ?_, ?_⟩
  · intro sid u ts user h1 h2 h3
    simp only [step, handleStreamReady, h1, h2, h3, if_true]
    split
    · dsimp only
      exact fset_self _ _ _
    · dsimp only
      exact fset_self _ _ _
  · intro sid u ts user h1 h2 h3
    obtain ⟨room0, hroom0, -⟩ := hinv.seated _ (aget_mem h2)
    simp only [step, handleClose, h1, h2, h3, hroom0]
    split
    · dsimp only
      exact fset_self _ _ _
    · dsimp only
      exact fset_self _ _ _

theorem stream_active_witness :
    (step stateA (Event.emsg 0 "T3" InMsg.STREAM_READY)).1.activeStreams
      "r" = some true ∧
    (step stateA (Event.eclose 0 "T4")).1.activeStreams "r" = none :=
  ⟨(stream_active_implies_broadcaster stateA reachable_stateA).2.1
      0 0 "T3"
      { id := 0, username := "Alice", role := Role.broadcaster, roomId := "r" }
      (by rfl) (by rfl) (by rfl),
   (stream_active_implies_broadcaster stateA reachable_stateA).2.2
      0 0 "T4"
      { id := 0, username := "Alice", role := Role.broadcaster, roomId := "r" }
      (by rfl) (by rfl) (by rfl)⟩

/-- C6: in every reachable state every registered room has a broadcaster or
a viewer (empty rooms are deleted), the chat log of an absent room is
absent, and a chat-history read for an absent room returns the empty
list. -/
theorem empty_room_absent (s : HubState) (hreach : Reachable s) :
    (∀ r room, s.rooms r = some room →
      room.broadcaster.isSome ∨ room.viewers ≠ []) ∧
    (∀ r, s.rooms r = none → s.chatMessages r = none) ∧
    (∀ r limit, s.rooms r = none → getRoomMessages s r limit = []) := by
  have hinv := reachable_inv s hreach
  refine ⟨hinv.nonempty, hinv.chatNone, ?_⟩
  intro r limit hr
  unfold getRoomMessages
  rw [hinv.chatNone r hr]
  cases limit <;> simp

/-- The state after Alice created room `r` and then her session closed:
the room is deleted again. -/
def stateE : HubState := (step stateA (Event.eclose 0 "T4")).1

theorem reachable_stateE : Reachable stateE :=
  Reachable.next _ _ reachable_stateA

theorem empty_room_absent_witness :
    stateE.rooms "r" = none ∧ stateE.chatMessages "r" = none ∧
    getRoomMessages stateE "r" 50 = [] :=
  ⟨rfl, (empty_room_absent stateE reachable_stateE).2.1 "r" rfl,
   (empty_room_absent stateE reachable_stateE).2.2 "r" 50 rfl⟩


theorem broadcastToRoom_no_exclude (s : HubState) (roomId : String)
    (msg : OutMsg) (room : Room) (hroom : s.rooms roomId = some room) :
    broadcastToRoom s roomId msg none =
      (room.broadcaster.toList ++ room.viewers).filterMap
        (fun uid => (s.connections uid).map (fun ws => (ws, msg))) := by
  unfold broadcastToRoom
  rw [hroom]
  have hm : (match room.broadcaster with
      | some b => [b]
      | none => []) = room.broadcaster.toList := by
    cases room.broadcaster <;> rfl
  dsimp only
  rw [hm]
  simp

theorem filter_length_broadcast (l : List Nat) (conn : Nat → Option Nat)
    (msg : OutMsg) (ws : Nat) :
    ((l.filterMap (fun uid => (conn uid).map (fun w => (w, msg)))).filter
      (fun o => o.1 = ws)).length =
    (l.filter (fun uid => conn uid = some ws)).length := by
  induction l with
  | nil => rfl
  | cons a l ih =>
    cases hc : conn a with
    | none => simp [List.filterMap_cons, hc, ih]
    | some w =>
      by_cases hw : w = ws
      · subst hw
        simp [List.filterMap_cons, hc, List.filter_cons, ih]
      · simp [List.filterMap_cons, hc, List.filter_cons, hw, ih]

theorem broadcast_snd_eq (l : List Nat) (conn : Nat → Option Nat)
    (msg : OutMsg) :
    ∀ o ∈ l.filterMap (fun uid => (conn uid).map (fun w => (w, msg))),
      o.2 = msg := by
  intro o ho
  rw [List.mem_filterMap] at ho
  obtain ⟨uid, -, h⟩ := ho
  cases hc : conn uid with
  | none => rw [hc] at h; simp at h
  | some w =>
    rw [hc] at h
    simp only [Option.map_some', Option.some.injEq] at h
    rw [← h]

/-- C7: a private CHAT_MESSAGE whose recipient has a live connection is
delivered as exactly one CHAT_MESSAGE_RECEIVED to the recipient connection
followed by one copy to the sender session, and to no other session; a
public CHAT_MESSAGE from a joined user is fanned out once per room member
with a live connection (sender included), every emitted envelope being the
same server-minted CHAT_MESSAGE_RECEIVED. -/
theorem chat_message_delivery (s : HubState) (sid cu : Nat)
    (ts content : String) (user : User)
    (h1 : s.sessionUser sid = some cu)
    (h2 : aget s.users cu = some user) :
    (∀ rid rws : Nat, s.connections rid = some rws →
      (step s (Event.emsg sid ts
          (InMsg.CHAT_MESSAGE content ChatKind.priv (some rid)))).2 =
        [(rws, OutMsg.CHAT_MESSAGE_RECEIVED
            { id := s.nextId, senderId := user.id,
              senderUsername := user.username, roomId := user.roomId,
              content := content, kind := ChatKind.priv,
              recipientId := some rid, timestamp := ts }),
         (sid, OutMsg.CHAT_MESSAGE_RECEIVED
            { id := s.nextId, senderId := user.id,
              senderUsername := user.username, roomId := user.roomId,
              content := content, kind := ChatKind.priv,
              recipientId := some rid, timestamp := ts })] ∧
      (∀ w : Nat, w ≠ rws → w ≠ sid →
        ((step s (Event.emsg sid ts
            (InMsg.CHAT_MESSAGE content ChatKind.priv (some rid)))).2.filter
          (fun o => o.1 = w)) = [])) ∧
    (∀ room : Room, s.rooms user.roomId = some room → ∀ ws : Nat,
      (((step s (Event.emsg sid ts
          (InMsg.CHAT_MESSAGE content ChatKind.pub none))).2.filter
          (fun o => o.1 = ws)).length =
        ((room.broadcaster.toList ++ room.viewers).filter
          (fun uid => s.connections uid = some ws)).length) ∧
      (∀ o ∈ (step s (Event.emsg sid ts
          (InMsg.CHAT_MESSAGE content ChatKind.pub none))).2,
        o.2 = OutMsg.CHAT_MESSAGE_RECEIVED
            { id := s.nextId, senderId := user.id,
              senderUsername := user.username, roomId := user.roomId,
              content := content, kind := ChatKind.pub,
              recipientId := none, timestamp := ts })) := by
  constructor
  · intro rid rws hconn
    have houts : (step s (Event.emsg sid ts
        (InMsg.CHAT_MESSAGE content ChatKind.priv (some rid)))).2 =
        [(rws, OutMsg.CHAT_MESSAGE_RECEIVED
            { id := s.nextId, senderId := user.id,
              senderUsername := user.username, roomId := user.roomId,
              content := content, kind := ChatKind.priv,
              recipientId := some rid, timestamp := ts }),
         (sid, OutMsg.CHAT_MESSAGE_RECEIVED
            { id := s.nextId, senderId := user.id,
              senderUsername := user.username, roomId := user.roomId,
              content := content, kind := ChatKind.priv,
              recipientId := some rid, timestamp := ts })] := by
      simp only [step, handleChat, h1, h2, hconn]
      rfl
    refine ⟨houts, ?_⟩
    intro w hw1 hw2
    rw [houts]
    simp only [List.filter_cons, decide_eq_true_eq]
    rw [if_neg (fun h => hw1 h.symm), if_neg (fun h => hw2 h.symm)]
    rfl
  · intro room hroom ws
    have houts : (step s (Event.emsg sid ts
        (InMsg.CHAT_MESSAGE content ChatKind.pub none))).2 =
        (room.broadcaster.toList ++ room.viewers).filterMap
          (fun uid => (s.connections uid).map (fun w =>
            (w, OutMsg.CHAT_MESSAGE_RECEIVED
              { id := s.nextId, senderId := user.id,
                senderUsername := user.username, roomId := user.roomId,
                content := content, kind := ChatKind.pub,
                recipientId := none, timestamp := ts }))) := by
      simp only [step, handleChat, h1, h2]
      exact broadcastToRoom_no_exclude _ _ _ room hroom
    constructor
    · rw [houts]
      exact filter_length_broadcast _ _ _ _
    · rw [houts]
      exact broadcast_snd_eq _ _ _

theorem chat_message_delivery_witness :
    (step stateB (Event.emsg 0 "T5"
        (InMsg.CHAT_MESSAGE "hi" ChatKind.priv (some 1)))).2 =
      [(1, OutMsg.CHAT_MESSAGE_RECEIVED
          { id := 2, senderId := 0, senderUsername := "Alice", roomId := "r",
            content := "hi", kind := ChatKind.priv, recipientId := some 1,
            timestamp := "T5" }),
       (0, OutMsg.CHAT_MESSAGE_RECEIVED
          { id := 2, senderId := 0, senderUsername := "Alice", roomId := "r",
            content := "hi", kind := ChatKind.priv, recipientId := some 1,
            timestamp := "T5" })] :=
  ((chat_message_delivery stateB 0 0 "T5" "hi"
      { id := 0, username := "Alice", role := Role.broadcaster, roomId := "r" }
      (by rfl) (by rfl)).1 1 1 (by rfl)).1

/-- C10: a private CHAT_MESSAGE whose recipient id maps to a live
connection is delivered to that connection even when the recipient user
belongs to a different room than the sender; only the connection registry
is consulted for the recipient, never room membership. -/
theorem private_chat_crosses_rooms (s : HubState) (sid cu rid rws : Nat)
    (ts content : String) (user ruser : User)
    (h1 : s.sessionUser sid = some cu)
    (h2 : aget s.users cu = some user)
    (h3 : aget s.users rid = some ruser)
    (h4 : ruser.roomId ≠ user.roomId)
    (h5 : s.connections rid = some rws) :
    (step s (Event.emsg sid ts
        (InMsg.CHAT_MESSAGE content ChatKind.priv (some rid)))).2 =
      [(rws, OutMsg.CHAT_MESSAGE_RECEIVED
          { id := s.nextId, senderId := user.id,
            senderUsername := user.username, roomId := user.roomId,
            content := content, kind := ChatKind.priv,
            recipientId := some rid, timestamp := ts }),
       (sid, OutMsg.CHAT_MESSAGE_RECEIVED
          { id := s.nextId, senderId := user.id,
            senderUsername := user.username, roomId := user.roomId,
            content := content, kind := ChatKind.priv,
            recipientId := some rid, timestamp := ts })] := by
  simp only [step, handleChat, h1, h2, h5]
  rfl

theorem private_chat_crosses_rooms_witness :
    (step stateC (Event.emsg 2 "T6"
        (InMsg.CHAT_MESSAGE "psst" ChatKind.priv (some 0)))).2 =
      [(0, OutMsg.CHAT_MESSAGE_RECEIVED
          { id := 3, senderId := 2, senderUsername := "Carol", roomId := "q",
            content := "psst", kind := ChatKind.priv, recipientId := some 0,
            timestamp := "T6" }),
       (2, OutMsg.CHAT_MESSAGE_RECEIVED
          { id := 3, senderId := 2, senderUsername := "Carol", roomId := "q",
            content := "psst", kind := ChatKind.priv, recipientId := some 0,
            timestamp := "T6" })] :=
  private_chat_crosses_rooms stateC 2 2 0 0 "T6" "psst"
    { id := 2, username := "Carol", role := Role.broadcaster, roomId := "q" }
    { id := 0, username := "Alice", role := Role.broadcaster, roomId := "r" }
    (by rfl) (by rfl) (by rfl) (by decide) (by rfl)


/-- C8 counterexample: when viewer Bob (session 1) joins room `r` holding
only broadcaster Alice (session 0), the joining session receives exactly
ROOM_JOINED followed by ROOM_STATE: it does not receive USER_JOINED,
because the USER_JOINED fan-out excludes the new user. -/
theorem viewer_join_order_counterexample :
    ((step stateA evBobJoins).2.filter (fun o => o.1 = 1)).map
        (fun o => o.2) =
      [OutMsg.ROOM_JOINED
        (some { room := { id := "r", name := "Room r", broadcaster := some 0,
                          viewers := [1] },
                users := [{ id := 0, username := "Alice",
                            role := Role.broadcaster, roomId := "r" },
                          { id := 1, username := "Bob",
                            role := Role.viewer, roomId := "r" }] })
        { id := 1, username := "Bob", role := Role.viewer, roomId := "r" } [],
       OutMsg.ROOM_STATE
        (some { room := { id := "r", name := "Room r", broadcaster := some 0,
                          viewers := [1] },
                users := [{ id := 0, username := "Alice",
                            role := Role.broadcaster, roomId := "r" },
                          { id := 1, username := "Bob",
                            role := Role.viewer, roomId := "r" }] })] := by
  decide

/-- C8 (amended): when a viewer joins an existing room containing only its
broadcaster, with the stream not yet active, the hub emits, in order:
ROOM_JOINED to the joiner, USER_JOINED (payload the new user) to the
broadcaster, then ROOM_STATE to the broadcaster and to the joiner; no
BROADCASTER_READY and no USER_JOINED is sent to the joiner. -/
theorem viewer_join_notification_order (s : HubState) (sid b bws : Nat)
    (ts roomId username : String) (room : Room) (busr : User)
    (hreach : Reachable s) (hroom : s.rooms roomId = some room)
    (hb : room.broadcaster = some b) (hviewers : room.viewers = [])
    (hbusr : aget s.users b = some busr)
    (hbws : s.connections b = some bws)
    (htaken : isUsernameTaken s roomId username = false)
    (hstream : (s.activeStreams roomId).getD false = false) :
    ∃ rwu msgs,
      (step s (Event.emsg sid ts
          (InMsg.JOIN_ROOM roomId username Role.viewer))).2 =
        [(sid, OutMsg.ROOM_JOINED rwu
            { id := s.nextId, username := username, role := Role.viewer,
              roomId := roomId } msgs),
         (bws, OutMsg.USER_JOINED
            { id := s.nextId, username := username, role := Role.viewer,
              roomId := roomId }),
         (bws, OutMsg.ROOM_STATE rwu),
         (sid, OutMsg.ROOM_STATE rwu)] := by
  have hinv := reachable_inv s hreach
  have hfresh : ∀ p ∈ s.users, p.1 ≠ s.nextId :=
    fun p hp => Nat.ne_of_lt (hinv.idBound p hp)
  have hbne : b ≠ s.nextId := hfresh _ (aget_mem hbusr)
  obtain ⟨rid0, rname0, rb0, rv0⟩ := room
  simp only at hb hviewers
  subst hb
  subst hviewers
  refine ⟨some { room := { id := rid0, name := rname0, broadcaster := some b,
                           viewers := [s.nextId] },
                 users := [busr,
                   { id := s.nextId, username := username,
                     role := Role.viewer, roomId := roomId }] },
         getRoomMessages s roomId 50, ?_⟩
  simp only [step, handleJoin, hroom, htaken, Bool.false_eq_true, if_false,
    joinSeat, broadcastToRoom, notifyViewerOfBroadcaster, getRoomWithUsers,
    getRoomMessages, fset_self]
  simp [hstream, hbws, hbusr, List.filterMap_cons, fset_self,
    fset_other _ _ hbne, aget_aset_fresh _ hfresh,
    aget_aset_other _ hfresh hbne, Ne.symm hbne]

theorem viewer_join_notification_order_witness :
    ∃ rwu msgs,
      (step stateA (Event.emsg 1 "T1"
          (InMsg.JOIN_ROOM "r" "Bob" Role.viewer))).2 =
        [(1, OutMsg.ROOM_JOINED rwu
            { id := 1, username := "Bob", role := Role.viewer,
              roomId := "r" } msgs),
         (0, OutMsg.USER_JOINED
            { id := 1, username := "Bob", role := Role.viewer,
              roomId := "r" }),
         (0, OutMsg.ROOM_STATE rwu),
         (1, OutMsg.ROOM_STATE rwu)] :=
  viewer_join_notification_order stateA 1 0 0 "T1" "r" "Bob"
    { id := "r", name := "Room r", broadcaster := some 0, viewers := [] }
    { id := 0, username := "Alice", role := Role.broadcaster, roomId := "r" }
    reachable_stateA (by rfl) (by rfl) (by rfl) (by rfl) (by rfl)
    (by decide) (by rfl)

/-- Session 0, already bound to identity 0 in room `r`, sends a second
JOIN_ROOM creating room `r2`. -/
def evAliceRejoins : Event :=
  Event.emsg 0 "T1" (InMsg.JOIN_ROOM "r2" "AliceTwo" Role.broadcaster)

/-- C9: violated by the code.  After a session that already holds an
identity sends another JOIN_ROOM, two distinct user ids (0 and 1) are both
mapped to session 0 in the connection registry, and both identities are
present in the user registry; the hub never unseats the first identity. -/
theorem session_seats_two_identities :
    (step stateA evAliceRejoins).1.connections 0 = some 0 ∧
    (step stateA evAliceRejoins).1.connections 1 = some 0 ∧
    aget (step stateA evAliceRejoins).1.users 0 =
      some { id := 0, username := "Alice", role := Role.broadcaster,
             roomId := "r" } ∧
    aget (step stateA evAliceRejoins).1.users 1 =
      some { id := 1, username := "AliceTwo", role := Role.broadcaster,
             roomId := "r2" } := by
  refine ⟨rfl, rfl, ?_, ?_⟩ <;> decide

end Vestream
